import Mathlib

/-!
Verification model of the filesystem cache backend in `lib/cache/cache_fs.js`
(class `CacheFS` and class `PutTransactionFS`).

Paths are modelled as lists of components (the arguments of `path.join`), byte
buffers as lists of byte values, JavaScript numbers used as sizes as rationals,
times as integer milliseconds, and the filesystem as the list of file paths
present.  Asynchronous operations are modelled by their sequential effect, with
the outcome of each external filesystem call (move, unlink) injected as a
function argument.
-/

namespace UnityCacheFS

/-! ### Key and path derivation: CacheFS._calcFilename and CacheFS._calcFilepath -/

def hexAlphabet : List Char := String.toList "0123456789abcdef"

/-- Lowercase hex digit of a nibble, as produced by Buffer hex encoding. -/
def hexDigitChar (n : Nat) : Char := hexAlphabet.getD n '0'

/-- Lowercase hex rendering of a byte buffer; this is `hash.toString` with the
hex encoding in `_calcFilename`. -/
def bytesToHexChars : List Nat → List Char
  | [] => []
  | b :: bs => hexDigitChar (b / 16) :: hexDigitChar (b % 16) :: bytesToHexChars bs

/-- Modelled from the spec: `helpers.GUIDBufferToString` is defined in
`lib/helpers.js`, which is not among the provided sources.  The spec fixes the
filename to start with `hex(entryId)`, so the GUID buffer is rendered as the
lowercase hex of its bytes. -/
def GUIDBufferToString (guid : List Nat) : List Char := bytesToHexChars guid

/-- Extension table of `_calcFilename`.  An unrecognized type indexes the object
literal off-key, yielding the undefined value, which the template literal
renders as the text `undefined`. -/
def extChars (type : String) : List Char :=
  if type = "i" then String.toList "info"
  else if type = "a" then String.toList "bin"
  else if type = "r" then String.toList "resource"
  else String.toList "undefined"

def calcFilenameChars (type : String) (guid hash : List Nat) : List Char :=
  GUIDBufferToString guid ++ ('-' :: bytesToHexChars hash) ++ ('.' :: extChars type)

/-- `CacheFS._calcFilename`. -/
def calcFilename (type : String) (guid hash : List Nat) : String :=
  String.mk (calcFilenameChars type guid hash)

/-- `CacheFS._calcFilepath`: `path.join` of the cache root, the first two
characters of the filename, and the filename. -/
def calcFilepath (cachePath : List String) (type : String) (guid hash : List Nat) :
    List String :=
  cachePath ++ [(calcFilename type guid hash).take 2, calcFilename type guid hash]

/-- `PutTransactionFS.getWriteStream` allocates its temporary name with
`path.join(this._cachePath, uuid())`; `u` stands for the uuid draw. -/
def tempFilePath (cachePath : List String) (u : String) : List String :=
  cachePath ++ [u]

/-- Strict-descendant test between component paths.  `klaw(root)` walks every
entry strictly below `root` (and `root` itself, which is a directory and is
skipped by the `isDirectory` filter), so a file is subject to the cleanup scan
of `root` exactly when it lies strictly below `root`. -/
def withinDir : List String → List String → Bool
  | [], p => !p.isEmpty
  | _ :: _, [] => false
  | r :: rs, x :: xs => r == x && withinDir rs xs

/-! ### Write transactions: PutTransactionFS -/

inductive CacheErr
  | invalidArgument (msg : String)
  | sizeMismatch
deriving DecidableEq, Repr

/-- A JavaScript value passed as the declared size: a finite number, or any
non-number value. -/
inductive JSVal
  | num (q : ℚ)
  | nonNum
deriving DecidableEq, Repr

structure StreamRecord where
  file : List String
  type : String
  size : ℚ
deriving DecidableEq, Repr

structure FileEntry where
  file : List String
  type : String
  size : ℚ
deriving DecidableEq, Repr

structure TxState where
  streams : List (String × StreamRecord)
  files : List FileEntry
deriving DecidableEq, Repr

/-- The assignment `this._streams[type] = v` on a JavaScript object: replace the
value in place when the key is present, otherwise append (objects preserve
insertion order). -/
def setKey (m : List (String × StreamRecord)) (k : String) (v : StreamRecord) :
    List (String × StreamRecord) :=
  if m.any (fun p => p.1 == k) then m.map (fun p => if p.1 == k then (k, v) else p)
  else m ++ [(k, v)]

/-- Whether the transaction already holds a write stream for the given type. -/
def hasStreamFor (tx : TxState) (t : String) : Bool :=
  tx.streams.any (fun p => p.1 == t)

/-- The size check of `getWriteStream` passes exactly for a number greater than
zero (the code throws when the argument is not a number or is at most zero). -/
def sizeOk : JSVal → Bool
  | JSVal.num q => decide (0 < q)
  | JSVal.nonNum => false

/-- The type check of `getWriteStream` passes for the three recognized kinds. -/
def typeOk (t : String) : Bool := t == "a" || t == "i" || t == "r"

inductive GWSResult
  | ok (file : List String)
  | err (e : CacheErr)
deriving DecidableEq, Repr

def GWSResult.isOk : GWSResult → Bool
  | GWSResult.ok _ => true
  | GWSResult.err _ => false

structure GWSOut where
  result : GWSResult
  tx : TxState
  disk : List (List String)
deriving DecidableEq, Repr

/-- `fs.ensureFile`: the file exists afterwards. -/
def ensureFile (disk : List (List String)) (file : List String) : List (List String) :=
  if disk.contains file then disk else disk ++ [file]

/-- `PutTransactionFS.getWriteStream`: computes the temporary path, validates
the declared size and then the type (both throws happen before any disk state
is touched), then creates the temporary file and records the stream under its
type key.  `disk` is the set of files present on disk. -/
def getWriteStream (tx : TxState) (disk : List (List String)) (cachePath : List String)
    (u : String) (type : String) (size : JSVal) : GWSOut :=
  let file := tempFilePath cachePath u
  match size with
  | JSVal.nonNum =>
      ⟨GWSResult.err (CacheErr.invalidArgument "Invalid size for write stream"), tx, disk⟩
  | JSVal.num q =>
      if q ≤ 0 then
        ⟨GWSResult.err (CacheErr.invalidArgument "Invalid size for write stream"), tx, disk⟩
      else if !typeOk type then
        ⟨GWSResult.err (CacheErr.invalidArgument "Unrecognized type for transaction"), tx, disk⟩
      else
        ⟨GWSResult.ok file,
         { tx with streams := setKey tx.streams type ⟨file, type, q⟩ },
         ensureFile disk file⟩

/-! ### Finalize: PutTransactionFS._closeAllStreams -/

/-- A write stream as observed once closed: its declared size together with the
actual byte count written. -/
structure ClosedStream where
  file : List String
  type : String
  size : ℚ
  bytesWritten : Nat
deriving DecidableEq, Repr

def toFileEntry (s : ClosedStream) : FileEntry := ⟨s.file, s.type, s.size⟩

/-- The verification `stream.bytesWritten === stream.size` of
`processClosedStream`. -/
def streamMatches (s : ClosedStream) : Bool := decide ((s.bytesWritten : ℚ) = s.size)

/-- `PutTransactionFS._closeAllStreams`: every stream is awaited and processed
in insertion order; a matching stream is pushed onto `_files`, while the first
mismatch throws at once, leaving the entries pushed so far. -/
def closeAllStreams : List ClosedStream → List FileEntry → List FileEntry × Option CacheErr
  | [], files => (files, none)
  | s :: rest, files =>
      if streamMatches s then closeAllStreams rest (files ++ [toFileEntry s])
      else (files, some CacheErr.sizeMismatch)

/-! ### Commit: CacheFS.endPutTransaction and CacheFS._addFileToCache -/

inductive LogItem
  | addedFile (size : ℚ) (path : List String)
  | moveFailed (f : FileEntry)
deriving DecidableEq, Repr

/-- `fs.move` with overwrite: afterwards the destination holds the moved file,
and both the source entry and any previous file at the destination are gone. -/
def moveOnDisk (disk : List (List String)) (src dst : List String) : List (List String) :=
  dst :: disk.filter (fun p => decide (p ≠ src) && decide (p ≠ dst))

/-- `CacheFS._addFileToCache`: move the source file onto the canonical sharded
path and return the new disk together with that path. -/
def addFileToCache (cachePath : List String) (type : String) (guid hash : List Nat)
    (sourcePath : List String) (disk : List (List String)) :
    List (List String) × List String :=
  (moveOnDisk disk sourcePath (calcFilepath cachePath type guid hash),
   calcFilepath cachePath type guid hash)

/-- One `moveFile` call of `CacheFS.endPutTransaction`: the underlying move
either succeeds (logged with the resulting path) or fails (the error is
logged); in both cases the surrounding promise resolves.  `moveOk` injects the
outcome of each underlying `fs.move`. -/
def moveStep (cachePath : List String) (guid hash : List Nat) (moveOk : FileEntry → Bool)
    (acc : List (List String) × List LogItem) (f : FileEntry) :
    List (List String) × List LogItem :=
  if moveOk f then
    ((addFileToCache cachePath f.type guid hash f.file acc.1).1,
     acc.2 ++ [LogItem.addedFile f.size (addFileToCache cachePath f.type guid hash f.file acc.1).2])
  else (acc.1, acc.2 ++ [LogItem.moveFailed f])

/-- `CacheFS.endPutTransaction`: awaits `transaction.finalize()` first (which
runs `_closeAllStreams`), then moves every verified file into the cache. -/
def endPutTransaction (cachePath : List String) (guid hash : List Nat)
    (streams : List ClosedStream) (moveOk : FileEntry → Bool) (disk : List (List String)) :
    List (List String) × List LogItem × Option CacheErr :=
  match closeAllStreams streams [] with
  | (_, some e) => (disk, [], some e)
  | (files, none) =>
      ((files.foldl (moveStep cachePath guid hash moveOk) (disk, [])).1,
       (files.foldl (moveStep cachePath guid hash moveOk) (disk, [])).2, none)

/-! ### Cleanup: CacheFS.cleanup -/

structure Stats where
  size : Nat
  atime : Int
  isDir : Bool
deriving DecidableEq, Repr

structure WalkItem where
  path : List String
  stats : Stats
deriving DecidableEq, Repr

structure ProgressData where
  cacheCount : Nat
  cacheSize : Int
  deleteCount : Nat
  deleteSize : Int
deriving DecidableEq, Repr

inductive Event
  | searchProgress (d : ProgressData)
  | searchFinish (d : ProgressData)
  | deleteItem (path : List String)
  | deleteFinish (d : ProgressData)
deriving DecidableEq, Repr

structure CleanupState where
  allItems : List WalkItem
  deleteItems : List (List String)
  cacheSize : Int
  deleteSize : Int
  events : List Event
deriving DecidableEq, Repr

def initialCleanupState : CleanupState := ⟨[], [], 0, 0, []⟩

/-- The `progressData` closure of `cleanup`. -/
def progressData (s : CleanupState) : ProgressData :=
  ⟨s.allItems.length, s.cacheSize, s.deleteItems.length, s.deleteSize⟩

/-- One step of the `filterTransform` stream of `cleanup`, for one walked item:
directories are skipped; a file is accumulated into `allItems` and `cacheSize`,
and when its access time is strictly older than `minFileAccessTime` its size is
added to `deleteSize` and it is pushed downstream, where the data handler
appends its path to `deleteItems` (streams in flowing mode deliver the pushed
item synchronously); finally a search-progress event is emitted. -/
def walkStep (minFileAccessTime : Int) (s : CleanupState) (item : WalkItem) : CleanupState :=
  if item.stats.isDir then s
  else
    let s1 : CleanupState :=
      { s with allItems := s.allItems ++ [item],
               cacheSize := s.cacheSize + item.stats.size }
    let s2 : CleanupState :=
      if item.stats.atime < minFileAccessTime then
        { s1 with deleteSize := s1.deleteSize + item.stats.size,
                  deleteItems := s1.deleteItems ++ [item.path] }
      else s1
    { s2 with events := s2.events ++ [Event.searchProgress (progressData s2)] }

/-- The call `allItems.sort` with the comparator returning the boolean
`a.stats.atime > b.stats.atime`.  Array sort coerces the comparator result with
ToNumber, so it is 0 or 1 and never negative; the V8 TimSort run detection then
sees the whole array as a single non-descending run and leaves it unchanged, so
the call is the identity on the array. -/
def sortByAtimeV8 (items : List WalkItem) : List WalkItem := items

/-- The state update of one iteration of the size-budget loop in the `finalize`
closure of `cleanup`: emit a progress event (with the data before the update),
add the item size to `deleteSize` and push the item path onto `deleteItems`. -/
def sizeLoopState (s : CleanupState) (item : WalkItem) : CleanupState :=
  { s with events := s.events ++ [Event.searchProgress (progressData s)],
           deleteSize := s.deleteSize + item.stats.size,
           deleteItems := s.deleteItems ++ [item.path] }

/-- The size-budget loop of the `finalize` closure: iterate the (sorted) item
list, updating the state per item, and break as soon as
`cacheSize - deleteSize` is within the budget. -/
def sizeLoop (maxCacheSize : Int) : List WalkItem → CleanupState → CleanupState
  | [], s => s
  | item :: rest, s =>
      if (sizeLoopState s item).cacheSize - (sizeLoopState s item).deleteSize ≤ maxCacheSize then
        sizeLoopState s item
      else sizeLoop maxCacheSize rest (sizeLoopState s item)

/-- The search part of the `finalize` closure of `cleanup`: when a positive
`maxCacheSize` is configured and `cacheSize - deleteSize` still exceeds it, run
the size-budget loop over the sorted `allItems` array. -/
def finalizeSearch (maxCacheSize : Int) (s : CleanupState) : CleanupState :=
  if 0 < maxCacheSize ∧ maxCacheSize < s.cacheSize - s.deleteSize then
    sizeLoop maxCacheSize (sortByAtimeV8 s.allItems) s
  else s

/-- The deletion loop of the `finalize` closure: for each marked path, emit a
delete-item event and await `fs.unlink`; `unlinkRes` injects the outcome of
each unlink (`none` is success).  A failed unlink throws out of the loop.
Returns the state, the successfully unlinked paths, and the error if any. -/
def deletePhase (unlinkRes : List String → Option String) :
    List (List String) → CleanupState → CleanupState × List (List String) × Option String
  | [], s => (s, [], none)
  | p :: rest, s =>
      let s1 : CleanupState := { s with events := s.events ++ [Event.deleteItem p] }
      match unlinkRes p with
      | some e => (s1, [], some e)
      | none =>
          let r := deletePhase unlinkRes rest s1
          (r.1, p :: r.2.1, r.2.2)

/-- The cleanup options surface: `expireTimeSpan` is `none` when
`moment.duration` of the configured value is invalid, otherwise its length in
milliseconds; `maxCacheSize` in bytes, nonpositive meaning disabled. -/
structure CleanupOptions where
  expireTimeSpan : Option Int
  maxCacheSize : Int

/-- Observable outcome of one `cleanup` call: the events emitted, the paths
marked for deletion, the paths actually unlinked, and the rejection error if
the returned promise rejected. -/
structure CleanupResult where
  events : List Event
  marked : List (List String)
  unlinked : List (List String)
  err : Option String
deriving DecidableEq, Repr

/-- `CacheFS.cleanup`: validate the expiry duration (rejecting before any
directory work), walk the tree accumulating and expiry-marking items, run the
size-budget pass, emit the search-finish event, then (unless `dryRun`) delete
every marked file and emit the deletion-finish event.  `walkItems` is the
sequence of items the directory walk produces, `now` the current time in
milliseconds. -/
def cleanup (opts : CleanupOptions) (now : Int) (dryRun : Bool)
    (walkItems : List WalkItem) (unlinkRes : List String → Option String) :
    CleanupResult :=
  match opts.expireTimeSpan with
  | none => ⟨[], [], [], some "Invalid expireTimeSpan option"⟩
  | some d =>
      if d = 0 then ⟨[], [], [], some "Invalid expireTimeSpan option"⟩
      else
        let minFileAccessTime := now - d
        let sWalk := walkItems.foldl (walkStep minFileAccessTime) initialCleanupState
        let sSearch := finalizeSearch opts.maxCacheSize sWalk
        let sFin : CleanupState :=
          { sSearch with events := sSearch.events ++ [Event.searchFinish (progressData sSearch)] }
        if dryRun then
          ⟨sFin.events ++ [Event.deleteFinish (progressData sFin)], sFin.deleteItems, [], none⟩
        else
          let r := deletePhase unlinkRes sFin.deleteItems sFin
          match r.2.2 with
          | some e => ⟨r.1.events, sFin.deleteItems, r.2.1, some e⟩
          | none =>
              ⟨r.1.events ++ [Event.deleteFinish (progressData r.1)], sFin.deleteItems, r.2.1, none⟩

/-! ### Concrete scenarios used by the claim theorems -/

def unlinkAllOk : List String → Option String := fun _ => none

def exOpts6 : CleanupOptions := ⟨some 86400000, 0⟩

def oldPath6 : List String := ["c", "aa", "f1"]

def newPath6 : List String := ["c", "bb", "f2"]

def exItems6 : List WalkItem :=
  [⟨["c"], ⟨0, 0, true⟩⟩,
   ⟨oldPath6, ⟨100, 27200000, false⟩⟩,
   ⟨newPath6, ⟨50, 199400000, false⟩⟩]

def exOpts1 : CleanupOptions := ⟨some 60, 5⟩

def expiredPath1 : List String := ["c", "aa", "e1"]

def retainedPath1 : List String := ["c", "bb", "r1"]

def exItems1 : List WalkItem :=
  [⟨expiredPath1, ⟨10, -100, false⟩⟩, ⟨retainedPath1, ⟨10, -50, false⟩⟩]

def exOpts1b : CleanupOptions := ⟨some 1000000, 15⟩

def exItems1b : List WalkItem :=
  [⟨["c", "q1"], ⟨10, 1, false⟩⟩, ⟨["c", "q2"], ⟨10, 2, false⟩⟩,
   ⟨["c", "q3"], ⟨10, 3, false⟩⟩]

def pathA3 : List String := ["c", "aa", "g1"]

def pathB3 : List String := ["c", "bb", "g2"]

def exOpts3 : CleanupOptions := ⟨some 60, 0⟩

def exItems3 : List WalkItem :=
  [⟨pathA3, ⟨10, -100, false⟩⟩, ⟨pathB3, ⟨10, -100, false⟩⟩]

def unlinkFailA : List String → Option String :=
  fun p => if p == pathA3 then some "EPERM" else none

def exOpts4 : CleanupOptions := ⟨some 500, 10⟩

def exItems4 : List WalkItem :=
  [⟨["c", "aa", "f1"], ⟨100, 600, false⟩⟩,
   ⟨tempFilePath ["c"] "u1", ⟨50, 900, false⟩⟩]

def emptyTx : TxState := ⟨[], []⟩

def txWithI : TxState := ⟨[("i", ⟨["c", "t0"], "i", 5⟩)], []⟩

def csMatch : ClosedStream := ⟨["c", "t1"], "i", 5, 5⟩

def csBad : ClosedStream := ⟨["c", "t2"], "a", 7, 3⟩

def csI7 : ClosedStream := ⟨["c", "t1"], "i", 5, 5⟩

def csA7 : ClosedStream := ⟨["c", "t2"], "a", 7, 7⟩

def csBad7 : ClosedStream := ⟨["c", "t3"], "r", 4, 1⟩

def moveOkOnlyI : FileEntry → Bool := fun f => f.type == "i"

/-! ### Claim theorems -/

/-- Claim C6 (confirmed): during the walk phase a file is marked for deletion
exactly when it is a file (not a directory) whose last-access time is strictly
older than `now - expireAfter`; and in the concrete two-file store (access
times `now - 2d` and `now - 10m`, `expireAfter = 1d`) a run with
`dryRun = false` deletes only the old file while a run with `dryRun = true`
deletes nothing but its final deletion-finished event still reports
`deleteCount = 1`. -/
theorem C6_expiry_walk_and_dryRun :
    (∀ (minA : Int) (s : CleanupState) (items : List WalkItem),
        (items.foldl (walkStep minA) s).deleteItems
          = s.deleteItems
            ++ (items.filter fun i => !i.stats.isDir && decide (i.stats.atime < minA)).map
                WalkItem.path)
    ∧ (cleanup exOpts6 200000000 false exItems6 unlinkAllOk).unlinked = [oldPath6]
    ∧ (cleanup exOpts6 200000000 true exItems6 unlinkAllOk).unlinked = []
    ∧ (cleanup exOpts6 200000000 true exItems6 unlinkAllOk).events.getLast?
        = some (Event.deleteFinish ⟨2, 150, 1, 100⟩) := by
  refine ⟨?_, by decide, by decide, by decide⟩
  intro minA s items
  induction items generalizing s with
  | nil => simp
  | cons i rest ih =>
    rw [List.foldl_cons, ih]
    cases hdir : i.stats.isDir with
    | true => simp [walkStep, hdir]
    | false =>
      by_cases hat : i.stats.atime < minA
      · simp [walkStep, hdir, hat]
      · simp [walkStep, hdir, hat]

/-- Claim C9 (confirmed): a cleanup invocation whose expiry duration is invalid
(`none`) or zero rejects with the invalid-argument error before any directory
work: no events are emitted, nothing is marked and nothing is unlinked. -/
theorem C9_invalid_expire_fails_fast (opts : CleanupOptions) (now : Int) (dryRun : Bool)
    (items : List WalkItem) (unlinkRes : List String → Option String)
    (h : opts.expireTimeSpan = none ∨ opts.expireTimeSpan = some 0) :
    cleanup opts now dryRun items unlinkRes
      = ⟨[], [], [], some "Invalid expireTimeSpan option"⟩ := by
  rcases h with h | h <;> simp [cleanup, h]

/-- Witness for C9 at a concrete invalid configuration. -/
theorem C9_witness :
    cleanup ⟨none, 0⟩ 0 true [] unlinkAllOk
      = ⟨[], [], [], some "Invalid expireTimeSpan option"⟩ :=
  C9_invalid_expire_fails_fast ⟨none, 0⟩ 0 true [] unlinkAllOk (Or.inl rfl)

/-- Claim C3 counterexample: with two marked files and the unlink of the first
failing, the cleanup call fails with that error and the second marked file is
never attempted (no delete-item event for it), contradicting the claim that an
individual delete failure is reported but does not abort the sweep. -/
theorem C3_counterexample :
    (cleanup exOpts3 0 false exItems3 unlinkFailA).err = some "EPERM"
      ∧ pathB3 ∈ (cleanup exOpts3 0 false exItems3 unlinkFailA).marked
      ∧ Event.deleteItem pathB3 ∉ (cleanup exOpts3 0 false exItems3 unlinkFailA).events := by
  decide

/-- Claim C3 (amended): with `dryRun = false`, a failure to delete a marked
file aborts the deletion sweep: the failing item gets its delete-item event but
no later marked file is attempted, the deletion-finished event is not emitted,
and the cleanup call fails with that error (files unlinked before the failure
stay deleted). -/
theorem C3_amended :
    (∀ (unlinkRes : List String → Option String) (p : List String)
        (rest : List (List String)) (s : CleanupState) (e : String),
        unlinkRes p = some e →
          deletePhase unlinkRes (p :: rest) s
            = ({ s with events := s.events ++ [Event.deleteItem p] }, [], some e))
    ∧ (cleanup exOpts3 0 false exItems3 unlinkFailA).unlinked = []
    ∧ (cleanup exOpts3 0 false exItems3 unlinkFailA).events
        = [Event.searchProgress ⟨1, 10, 1, 10⟩, Event.searchProgress ⟨2, 20, 2, 20⟩,
           Event.searchFinish ⟨2, 20, 2, 20⟩, Event.deleteItem pathA3] := by
  refine ⟨?_, by decide, by decide⟩
  intro unlinkRes p rest s e h
  simp [deletePhase, h]

/-- Witness for the general part of the amended C3, at a concrete failing
unlink. -/
theorem C3_witness :
    unlinkFailA pathA3 = some "EPERM"
      ∧ deletePhase unlinkFailA [pathA3, pathB3] initialCleanupState
          = ({ initialCleanupState with
                events := initialCleanupState.events ++ [Event.deleteItem pathA3] },
             [], some "EPERM") :=
  ⟨by decide, C3_amended.1 unlinkFailA pathA3 [pathB3] initialCleanupState "EPERM" (by decide)⟩

/-- Claim C1 counterexample: with one expired file (marked during the walk) and
one retained file, sizes 10 each and `maxTotalSize = 5`, the size-budget pass
draws from ALL walked files rather than only the retained ones: the expired
file is marked a second time (its size counted into `deleteSize` again) and the
retained file is never marked, although the remaining size (10) still exceeds
the budget (5). -/
theorem C1_counterexample :
    (cleanup exOpts1 0 true exItems1 unlinkAllOk).marked = [expiredPath1, expiredPath1]
      ∧ retainedPath1 ∉ (cleanup exOpts1 0 true exItems1 unlinkAllOk).marked := by
  decide

/-- Claim C1 (amended): when `maxTotalSize` is set and still exceeded after the
expiry walk, the size-budget pass iterates over ALL walked files — including
files already marked by the expiry pass, whose sizes are added to `deleteSize`
a second time and whose paths are appended to the delete list again — in the
order left by the boolean-comparator sort (the walk order), accumulating
`deleteSize` and stopping as soon as `cacheSize - deleteSize` is within budget
or the list is exhausted.  When no file was expiry-marked and the walk order is
ascending by access time, this yields the claimed behavior; in particular for
retained files of sizes `[10, 10, 10]` with ascending access times and
`maxTotalSize = 15`, exactly the two oldest are marked and the newest never
is. -/
theorem C1_amended :
    (∀ (maxC : Int) (items : List WalkItem) (s : CleanupState),
        ∃ k : Nat, k ≤ items.length
          ∧ (sizeLoop maxC items s).deleteItems
              = s.deleteItems ++ (items.take k).map WalkItem.path
          ∧ (sizeLoop maxC items s).deleteSize
              = s.deleteSize + ((items.take k).map fun i => (i.stats.size : Int)).sum
          ∧ (sizeLoop maxC items s).cacheSize = s.cacheSize
          ∧ (k = items.length
              ∨ (0 < k ∧ s.cacheSize - (sizeLoop maxC items s).deleteSize ≤ maxC)))
    ∧ (cleanup exOpts1b 1000000 true exItems1b unlinkAllOk).marked
        = [["c", "q1"], ["c", "q2"]]
    ∧ ["c", "q3"] ∉ (cleanup exOpts1b 1000000 true exItems1b unlinkAllOk).marked := by
  refine ⟨?_, by decide, by decide⟩
  intro maxC items
  induction items with
  | nil => exact fun s => ⟨0, by simp [sizeLoop]⟩
  | cons item rest ih =>
    intro s
    by_cases hstop :
        (sizeLoopState s item).cacheSize - (sizeLoopState s item).deleteSize ≤ maxC
    · have hL : sizeLoop maxC (item :: rest) s = sizeLoopState s item := by
        simp only [sizeLoop, if_pos hstop]
      refine ⟨1, by simp, ?_, ?_, ?_, Or.inr ⟨Nat.one_pos, ?_⟩⟩
      · rw [hL]
        simp [sizeLoopState]
      · rw [hL]
        simp [sizeLoopState]
      · rw [hL]
        simp [sizeLoopState]
      · rw [hL]
        simpa [sizeLoopState] using hstop
    · obtain ⟨k, hk, h1, h2, h3, h4⟩ := ih (sizeLoopState s item)
      have hL : sizeLoop maxC (item :: rest) s = sizeLoop maxC rest (sizeLoopState s item) := by
        simp [sizeLoop, hstop]
      refine ⟨k + 1, by simpa using Nat.succ_le_succ hk, ?_, ?_, ?_, ?_⟩
      · rw [hL, h1]
        simp [sizeLoopState, List.take_succ_cons]
      · rw [hL, h2]
        simp [sizeLoopState, List.take_succ_cons]
        ring
      · rw [hL, h3]
        simp [sizeLoopState]
      · rcases h4 with h4 | ⟨hk0, h4⟩
        · exact Or.inl (by simp [h4])
        · refine Or.inr ⟨Nat.succ_pos k, ?_⟩
          rw [hL]
          simpa [sizeLoopState] using h4

/-- Claim C4 counterexample: the temporary path of a write stream lies strictly
inside the tree that the cleanup walk scans, and in a concrete run a mid-write
temporary file (with a recent access time) is marked by the size-budget pass
and unlinked. -/
theorem C4_counterexample :
    withinDir ["c"] (tempFilePath ["c"] "u1") = true
      ∧ tempFilePath ["c"] "u1" ∈ (cleanup exOpts4 1000 false exItems4 unlinkAllOk).unlinked := by
  decide

/-- Claim C4 (amended): the temporary file of a transaction is allocated
directly under the cache root, hence inside the directory tree the cleanup walk
scans; cleanup therefore observes mid-write temporary files, and while the
expiry pass marks one only if its access time is expired, the size-budget pass
iterates every walked file and can mark and delete a mid-write temporary
file. -/
theorem C4_amended :
    (∀ (cachePath : List String) (u : String),
        withinDir cachePath (tempFilePath cachePath u) = true)
    ∧ (cleanup exOpts4 1000 false exItems4 unlinkAllOk).unlinked
        = [["c", "aa", "f1"], tempFilePath ["c"] "u1"] := by
  refine ⟨?_, by decide⟩
  intro cachePath u
  induction cachePath with
  | nil => rfl
  | cons r rs ih =>
    simp only [tempFilePath] at ih ⊢
    simp [withinDir, ih]

/-- A declared size that is a positive integer, in the sense of the claim. -/
def isPositiveIntSize (v : JSVal) : Prop := ∃ n : Nat, 0 < n ∧ v = JSVal.num n

/-- Claim C2 counterexample: a transaction that already holds a stream for type
i accepts a second `getWriteStream` for i (no already-opened check exists), and
a declared size of 3/2 — a number that is not a positive integer — is accepted
as well; both calls should fail according to the claim. -/
theorem C2_counterexample :
    hasStreamFor txWithI "i" = true
      ∧ (getWriteStream txWithI [] ["c"] "u1" "i" (JSVal.num 5)).result.isOk = true
      ∧ (getWriteStream emptyTx [] ["c"] "u1" "i" (JSVal.num (mkRat 3 2))).result.isOk = true
      ∧ ¬ isPositiveIntSize (JSVal.num (mkRat 3 2)) := by
  refine ⟨by decide, by decide, by decide, ?_⟩
  rintro ⟨n, hn, h⟩
  have h2 : mkRat 3 2 = (n : ℚ) := by
    injection h
  have h3 : (mkRat 3 2).den = 1 := by
    rw [h2, Rat.den_natCast]
  exact absurd h3 (by decide)

/-- Claim C2 (amended): `getWriteStream` fails with `InvalidArgument` in
exactly two cases — the declared size is not a number greater than zero
(positive non-integers are accepted), or the type is not one of a, i, r — and
succeeds otherwise; requesting a type that already has a stream is not an
error: the call succeeds and replaces that type's stream entry. -/
theorem C2_amended :
    (∀ (tx : TxState) (disk : List (List String)) (cachePath : List String)
        (u type : String) (size : JSVal),
        (getWriteStream tx disk cachePath u type size).result.isOk = true
          ↔ (sizeOk size = true ∧ typeOk type = true))
    ∧ (getWriteStream txWithI [] ["c"] "u1" "i" (JSVal.num 7)).tx.streams
        = [("i", ⟨["c", "u1"], "i", 7⟩)]
    ∧ (getWriteStream emptyTx [] ["c"] "u1" "x" (JSVal.num 5)).result
        = GWSResult.err (CacheErr.invalidArgument "Unrecognized type for transaction") := by
  refine ⟨?_, by decide, by decide⟩
  intro tx disk cachePath u type size
  cases size with
  | nonNum => simp [getWriteStream, sizeOk, GWSResult.isOk]
  | num q =>
    by_cases hq : q ≤ 0
    · simp [getWriteStream, if_pos hq, sizeOk, not_lt.mpr hq, GWSResult.isOk]
    · have hq' : 0 < q := not_le.mp hq
      by_cases ht : typeOk type = true
      · simp [getWriteStream, if_neg hq, ht, sizeOk, hq', GWSResult.isOk]
      · simp [getWriteStream, if_neg hq, ht, sizeOk, hq', GWSResult.isOk]

/-- Claim C10 (confirmed): when `getWriteStream` fails, the failure happens
before the temporary file is created, so the disk and the transaction state
(its streams map and its files list) are unchanged by the call. -/
theorem C10_no_side_effects_on_error (tx : TxState) (disk : List (List String))
    (cachePath : List String) (u type : String) (size : JSVal)
    (h : (getWriteStream tx disk cachePath u type size).result.isOk = false) :
    (getWriteStream tx disk cachePath u type size).tx = tx
      ∧ (getWriteStream tx disk cachePath u type size).disk = disk := by
  cases size with
  | nonNum => exact ⟨rfl, rfl⟩
  | num q =>
    by_cases hq : q ≤ 0
    · constructor <;> simp [getWriteStream, if_pos hq]
    · by_cases ht : typeOk type = true
      · exfalso
        simp [getWriteStream, if_neg hq, ht, GWSResult.isOk] at h
      · constructor <;> simp [getWriteStream, if_neg hq, ht]

/-- Witness for C10 at a concrete failing call (unrecognized type). -/
theorem C10_witness :
    (getWriteStream emptyTx [] ["c"] "u1" "x" (JSVal.num 5)).result.isOk = false
      ∧ ((getWriteStream emptyTx [] ["c"] "u1" "x" (JSVal.num 5)).tx = emptyTx
          ∧ (getWriteStream emptyTx [] ["c"] "u1" "x" (JSVal.num 5)).disk = []) :=
  ⟨by decide, C10_no_side_effects_on_error emptyTx [] ["c"] "u1" "x" (JSVal.num 5) (by decide)⟩

/-- Claim C5 (confirmed): when some opened stream of a transaction was closed
with an actual byte count different from its declared size, finalize
(`_closeAllStreams`) fails with the size-mismatch error: processing stops at
the first mismatching stream, the files list is extended exactly by the
entries of the matching prefix — so a mismatching stream contributes no entry
— and the error is raised after all verifications up to that point. -/
theorem C5_finalize_size_mismatch (streams : List ClosedStream) (files : List FileEntry)
    (h : ∃ s ∈ streams, streamMatches s = false) :
    ∃ pre s suf, streams = pre ++ s :: suf
      ∧ (∀ t ∈ pre, streamMatches t = true)
      ∧ streamMatches s = false
      ∧ closeAllStreams streams files
          = (files ++ pre.map toFileEntry, some CacheErr.sizeMismatch) := by
  revert h
  induction streams generalizing files with
  | nil => intro h; simp at h
  | cons s0 rest ih =>
    intro h
    by_cases h0 : streamMatches s0 = true
    · have hrest : ∃ s ∈ rest, streamMatches s = false := by
        rcases h with ⟨s, hs, hm⟩
        rcases List.mem_cons.mp hs with rfl | hs2
        · rw [h0] at hm
          cases hm
        · exact ⟨s, hs2, hm⟩
      obtain ⟨pre, s, suf, heq, hpre, hm2, hres⟩ := ih (files ++ [toFileEntry s0]) hrest
      refine ⟨s0 :: pre, s, suf, by simp [heq], ?_, hm2, ?_⟩
      · intro t ht
        rcases List.mem_cons.mp ht with rfl | ht2
        · exact h0
        · exact hpre t ht2
      · have hC : closeAllStreams (s0 :: rest) files
            = closeAllStreams rest (files ++ [toFileEntry s0]) := by
          simp only [closeAllStreams, if_pos h0]
        rw [hC, hres]
        simp
    · refine ⟨[], s0, rest, rfl, by simp, by simpa using h0, ?_⟩
      simp [closeAllStreams, h0]

/-- Witness for C5: a concrete two-stream finalize whose second stream wrote 3
of its declared 7 bytes. -/
theorem C5_witness :
    (∃ s ∈ [csMatch, csBad], streamMatches s = false)
      ∧ ∃ pre s suf, [csMatch, csBad] = pre ++ s :: suf
          ∧ (∀ t ∈ pre, streamMatches t = true)
          ∧ streamMatches s = false
          ∧ closeAllStreams [csMatch, csBad] []
              = ([] ++ pre.map toFileEntry, some CacheErr.sizeMismatch) :=
  ⟨by decide, C5_finalize_size_mismatch [csMatch, csBad] [] (by decide)⟩

/-- Canonical destination of one verified file, as computed by
`_addFileToCache`. -/
def canonPath (cachePath : List String) (guid hash : List Nat) (f : FileEntry) : List String :=
  calcFilepath cachePath f.type guid hash

lemma movePhase_preserves (cachePath : List String) (guid hash : List Nat)
    (moveOk : FileEntry → Bool) (p : List String) :
    ∀ (files : List FileEntry) (acc : List (List String) × List LogItem),
      (∀ g ∈ files, g.file ≠ p ∧ canonPath cachePath guid hash g ≠ p) →
      p ∈ acc.1 →
      p ∈ (files.foldl (moveStep cachePath guid hash moveOk) acc).1 := by
  intro files
  induction files with
  | nil =>
    intro acc _ hp
    simpa using hp
  | cons g rest ih =>
    intro acc hg hp
    rw [List.foldl_cons]
    refine ih _ (fun b hb => hg b (List.mem_cons_of_mem _ hb)) ?_
    have hgp := hg g (List.mem_cons_self _ _)
    have h1 : p ≠ g.file := Ne.symm hgp.1
    have h2 : p ≠ calcFilepath cachePath g.type guid hash := by
      have := Ne.symm hgp.2
      simpa [canonPath] using this
    by_cases hok : moveOk g = true
    · simp only [moveStep, if_pos hok, addFileToCache, moveOnDisk]
      refine List.mem_cons.mpr (Or.inr ?_)
      refine List.mem_filter.mpr ⟨hp, ?_⟩
      simp [h1, h2]
    · simpa [moveStep, hok] using hp

lemma movePhase_log_mono (cachePath : List String) (guid hash : List Nat)
    (moveOk : FileEntry → Bool) (x : LogItem) :
    ∀ (files : List FileEntry) (acc : List (List String) × List LogItem),
      x ∈ acc.2 → x ∈ (files.foldl (moveStep cachePath guid hash moveOk) acc).2 := by
  intro files
  induction files with
  | nil =>
    intro acc hx
    simpa using hx
  | cons g rest ih =>
    intro acc hx
    rw [List.foldl_cons]
    refine ih _ ?_
    by_cases hok : moveOk g = true
    · simp only [moveStep, if_pos hok]
      exact List.mem_append.mpr (Or.inl hx)
    · simp only [moveStep, if_neg hok]
      exact List.mem_append.mpr (Or.inl hx)

lemma movePhase_moved (cachePath : List String) (guid hash : List Nat)
    (moveOk : FileEntry → Bool) :
    ∀ (files : List FileEntry) (acc : List (List String) × List LogItem),
      List.Pairwise (fun f g =>
        canonPath cachePath guid hash g ≠ canonPath cachePath guid hash f
          ∧ g.file ≠ canonPath cachePath guid hash f) files →
      ∀ f ∈ files, moveOk f = true →
        canonPath cachePath guid hash f
          ∈ (files.foldl (moveStep cachePath guid hash moveOk) acc).1 := by
  intro files
  induction files with
  | nil =>
    intro acc _ f hf
    cases hf
  | cons g rest ih =>
    intro acc hpw f hf hok
    rw [List.foldl_cons]
    rcases List.pairwise_cons.mp hpw with ⟨hR, hpw2⟩
    rcases List.mem_cons.mp hf with rfl | hf2
    · refine movePhase_preserves cachePath guid hash moveOk _ rest _ ?_ ?_
      · intro b hb
        exact ⟨(hR b hb).2, (hR b hb).1⟩
      · simp only [moveStep, if_pos hok, addFileToCache, moveOnDisk, canonPath]
        exact List.mem_cons_self _ _
    · exact ih _ hpw2 f hf2 hok

lemma movePhase_failed_logged (cachePath : List String) (guid hash : List Nat)
    (moveOk : FileEntry → Bool) :
    ∀ (files : List FileEntry) (acc : List (List String) × List LogItem),
      ∀ f ∈ files, moveOk f = false →
        LogItem.moveFailed f ∈ (files.foldl (moveStep cachePath guid hash moveOk) acc).2 := by
  intro files
  induction files with
  | nil =>
    intro acc f hf
    cases hf
  | cons g rest ih =>
    intro acc f hf hnok
    rw [List.foldl_cons]
    rcases List.mem_cons.mp hf with rfl | hf2
    · refine movePhase_log_mono cachePath guid hash moveOk _ rest _ ?_
      simp [moveStep, hnok]
    · exact ih _ f hf2 hnok

/-- Claim C7 (confirmed): commit finalizes the transaction first (a finalize
error rejects the commit and nothing is moved), and then moves each verified
file independently into its canonical sharded path: the commit call itself
never fails because of a move — every file whose move succeeds is present at
its canonical path regardless of the outcome of its siblings (given the
distinct destinations and temp names the transaction guarantees), and every
failing move is reported by a per-file log entry.  Concretely: with the i kind
committed and the a kind's move failing, the i file sits at its canonical path
while the a failure is only logged. -/
theorem C7_commit_best_effort :
    (∀ (cachePath : List String) (guid hash : List Nat) (streams : List ClosedStream)
        (moveOk : FileEntry → Bool) (disk : List (List String)) (e : CacheErr),
        (closeAllStreams streams []).2 = some e →
          endPutTransaction cachePath guid hash streams moveOk disk = (disk, [], some e))
    ∧ (∀ (cachePath : List String) (guid hash : List Nat) (streams : List ClosedStream)
        (moveOk : FileEntry → Bool) (disk : List (List String)),
        (closeAllStreams streams []).2 = none →
          (endPutTransaction cachePath guid hash streams moveOk disk).2.2 = none
          ∧ (List.Pairwise (fun f g =>
                canonPath cachePath guid hash g ≠ canonPath cachePath guid hash f
                  ∧ g.file ≠ canonPath cachePath guid hash f) (closeAllStreams streams []).1 →
              ∀ f ∈ (closeAllStreams streams []).1, moveOk f = true →
                canonPath cachePath guid hash f
                  ∈ (endPutTransaction cachePath guid hash streams moveOk disk).1)
          ∧ (∀ f ∈ (closeAllStreams streams []).1, moveOk f = false →
                LogItem.moveFailed f
                  ∈ (endPutTransaction cachePath guid hash streams moveOk disk).2.1))
    ∧ endPutTransaction ["c"] [1] [2] [csI7, csA7] moveOkOnlyI []
        = ([["c", "01", "01-02.info"]],
           [LogItem.addedFile 5 ["c", "01", "01-02.info"],
            LogItem.moveFailed ⟨["c", "t2"], "a", 7⟩], none) := by
  refine ⟨?_, ?_, by decide⟩
  · intro cachePath guid hash streams moveOk disk e h
    rcases hq : closeAllStreams streams [] with ⟨files, err⟩
    rw [hq] at h
    simp only at h
    subst h
    simp [endPutTransaction, hq]
  · intro cachePath guid hash streams moveOk disk h
    rcases hq : closeAllStreams streams [] with ⟨files, err⟩
    rw [hq] at h
    simp only at h
    subst h
    have hE : endPutTransaction cachePath guid hash streams moveOk disk
        = ((files.foldl (moveStep cachePath guid hash moveOk) (disk, [])).1,
           (files.foldl (moveStep cachePath guid hash moveOk) (disk, [])).2, none) := by
      simp [endPutTransaction, hq]
    rw [hE]
    refine ⟨rfl, ?_, ?_⟩
    · intro hpw f hf hok
      exact movePhase_moved cachePath guid hash moveOk files (disk, []) hpw f hf hok
    · intro f hf hnok
      exact movePhase_failed_logged cachePath guid hash moveOk files (disk, []) f hf hnok

/-- Witness for C7: the finalize-error conjunct at a concrete mismatching
stream, and the success conjunct at the concrete two-file commit. -/
theorem C7_witness :
    endPutTransaction ["c"] [1] [2] [csBad7] moveOkOnlyI []
        = ([], [], some CacheErr.sizeMismatch)
      ∧ (endPutTransaction ["c"] [1] [2] [csI7, csA7] moveOkOnlyI []).2.2 = none :=
  ⟨C7_commit_best_effort.1 ["c"] [1] [2] [csBad7] moveOkOnlyI [] CacheErr.sizeMismatch (by decide),
   (C7_commit_best_effort.2.1 ["c"] [1] [2] [csI7, csA7] moveOkOnlyI [] (by decide)).1⟩

lemma hexDigitChar_mem (n : Nat) : hexDigitChar n ∈ hexAlphabet := by
  by_cases h : n < 16
  · interval_cases n <;> decide
  · have h16 : hexAlphabet.length ≤ n := by
      have hlen : hexAlphabet.length = 16 := by decide
      omega
    rw [hexDigitChar, List.getD_eq_default _ _ h16]
    decide

lemma bytesToHexChars_mem (l : List Nat) (c : Char) (hc : c ∈ bytesToHexChars l) :
    c ∈ hexAlphabet := by
  induction l with
  | nil => simp [bytesToHexChars] at hc
  | cons b bs ih =>
    simp only [bytesToHexChars, List.mem_cons] at hc
    rcases hc with rfl | rfl | hc
    · exact hexDigitChar_mem _
    · exact hexDigitChar_mem _
    · exact ih hc

lemma hexDigitChar_inj : ∀ m n : Fin 16, hexDigitChar m.val = hexDigitChar n.val → m = n := by
  decide

lemma bytesToHexChars_inj :
    ∀ (l1 l2 : List Nat), (∀ b ∈ l1, b < 256) → (∀ b ∈ l2, b < 256) →
      bytesToHexChars l1 = bytesToHexChars l2 → l1 = l2 := by
  intro l1
  induction l1 with
  | nil =>
    intro l2 _ _ h
    cases l2 with
    | nil => rfl
    | cons c cs => simp [bytesToHexChars] at h
  | cons b bs ih =>
    intro l2 hb1 hb2 h
    cases l2 with
    | nil => simp [bytesToHexChars] at h
    | cons c cs =>
      simp only [bytesToHexChars, List.cons.injEq] at h
      obtain ⟨h1, h2, h3⟩ := h
      have hblt : b < 256 := hb1 b (List.mem_cons_self _ _)
      have hclt : c < 256 := hb2 c (List.mem_cons_self _ _)
      have hd : b / 16 = c / 16 := by
        have := hexDigitChar_inj ⟨b / 16, by omega⟩ ⟨c / 16, by omega⟩ h1
        exact congrArg Fin.val this
      have hm : b % 16 = c % 16 := by
        have := hexDigitChar_inj ⟨b % 16, by omega⟩ ⟨c % 16, by omega⟩ h2
        exact congrArg Fin.val this
      have hbc : b = c := by omega
      subst hbc
      rw [ih cs (fun x hx => hb1 x (List.mem_cons_of_mem _ hx))
            (fun x hx => hb2 x (List.mem_cons_of_mem _ hx)) h3]

lemma append_sep_inj (sep : Char) :
    ∀ (a1 a2 b1 b2 : List Char), sep ∉ a1 → sep ∉ a2 →
      a1 ++ sep :: b1 = a2 ++ sep :: b2 → a1 = a2 ∧ b1 = b2 := by
  intro a1
  induction a1 with
  | nil =>
    intro a2 b1 b2 _ h2 heq
    cases a2 with
    | nil => simpa using heq
    | cons d a2T =>
      exfalso
      simp only [List.nil_append, List.cons_append, List.cons.injEq] at heq
      exact h2 (List.mem_cons.mpr (Or.inl heq.1))
  | cons x a1T ih =>
    intro a2 b1 b2 h1 h2 heq
    cases a2 with
    | nil =>
      exfalso
      simp only [List.nil_append, List.cons_append, List.cons.injEq] at heq
      exact h1 (List.mem_cons.mpr (Or.inl heq.1.symm))
    | cons y a2T =>
      simp only [List.cons_append, List.cons.injEq] at heq
      obtain ⟨hxy, heq2⟩ := heq
      subst hxy
      have htail := ih a2T b1 b2 (fun hs => h1 (List.mem_cons_of_mem _ hs))
          (fun hs => h2 (List.mem_cons_of_mem _ hs)) heq2
      exact ⟨by rw [htail.1], htail.2⟩

/-- Claim C8 (confirmed): the on-disk location is a pure function of the
(kind, entryId, contentHash) triple: the filename is the hex of the entry id,
a dash, the hex of the content hash, a dot and the fixed extension (info for i,
bin for a, resource for r); the file lives in the subdirectory named by the
first two characters of that filename directly under the store root; and
distinct triples (over the recognized kinds and byte-valued buffers) yield
distinct paths. -/
theorem C8_path_derivation :
    (∀ (type : String) (guid hash : List Nat),
        calcFilename type guid hash
          = String.mk (GUIDBufferToString guid ++ ('-' :: bytesToHexChars hash)
              ++ ('.' :: extChars type)))
    ∧ (∀ (cachePath : List String) (type : String) (guid hash : List Nat),
        calcFilepath cachePath type guid hash
          = cachePath ++ [(calcFilename type guid hash).take 2, calcFilename type guid hash])
    ∧ (extChars "i" = String.toList "info" ∧ extChars "a" = String.toList "bin"
        ∧ extChars "r" = String.toList "resource")
    ∧ (∀ (cachePath : List String) (t1 t2 : String) (g1 h1 g2 h2 : List Nat),
        t1 ∈ (["i", "a", "r"] : List String) → t2 ∈ (["i", "a", "r"] : List String) →
        (∀ b ∈ g1, b < 256) → (∀ b ∈ h1, b < 256) →
        (∀ b ∈ g2, b < 256) → (∀ b ∈ h2, b < 256) →
        calcFilepath cachePath t1 g1 h1 = calcFilepath cachePath t2 g2 h2 →
        t1 = t2 ∧ g1 = g2 ∧ h1 = h2) := by
  refine ⟨fun type guid hash => rfl, fun cp t g h => rfl, by decide, ?_⟩
  intro cachePath t1 t2 g1 h1 g2 h2 ht1 ht2 hg1 hh1 hg2 hh2 hpath
  simp only [calcFilepath] at hpath
  have hfn : calcFilename t1 g1 h1 = calcFilename t2 g2 h2 := by
    have h2' := (List.append_right_inj cachePath).mp hpath
    simp only [List.cons.injEq, and_true] at h2'
    exact h2'.2
  have hchars : calcFilenameChars t1 g1 h1 = calcFilenameChars t2 g2 h2 :=
    congrArg String.data hfn
  have hsplit1 := append_sep_inj '-' (bytesToHexChars g1) (bytesToHexChars g2)
      (bytesToHexChars h1 ++ ('.' :: extChars t1)) (bytesToHexChars h2 ++ ('.' :: extChars t2))
      (fun hs => (by decide : ('-' : Char) ∉ hexAlphabet) (bytesToHexChars_mem g1 _ hs))
      (fun hs => (by decide : ('-' : Char) ∉ hexAlphabet) (bytesToHexChars_mem g2 _ hs))
      (by simpa [calcFilenameChars, GUIDBufferToString, List.append_assoc] using hchars)
  obtain ⟨hgeq, hrest⟩ := hsplit1
  have hsplit2 := append_sep_inj '.' (bytesToHexChars h1) (bytesToHexChars h2)
      (extChars t1) (extChars t2)
      (fun hs => (by decide : ('.' : Char) ∉ hexAlphabet) (bytesToHexChars_mem h1 _ hs))
      (fun hs => (by decide : ('.' : Char) ∉ hexAlphabet) (bytesToHexChars_mem h2 _ hs))
      hrest
  obtain ⟨hheq, hext⟩ := hsplit2
  refine ⟨?_, bytesToHexChars_inj g1 g2 hg1 hg2 hgeq, bytesToHexChars_inj h1 h2 hh1 hh2 hheq⟩
  have ht1x : t1 = "i" ∨ t1 = "a" ∨ t1 = "r" := by simpa using ht1
  have ht2x : t2 = "i" ∨ t2 = "a" ∨ t2 = "r" := by simpa using ht2
  rcases ht1x with rfl | rfl | rfl <;> rcases ht2x with rfl | rfl | rfl <;>
    first
      | rfl
      | (exfalso; revert hext; decide)

/-- Witness for C8 at concrete recognized types and single-byte buffers. -/
theorem C8_witness :
    ("i" ∈ (["i", "a", "r"] : List String))
      ∧ ("i" = "i" ∧ ([18] : List Nat) = [18] ∧ ([171] : List Nat) = [171]) :=
  ⟨by decide,
   C8_path_derivation.2.2.2 ["c"] "i" "i" [18] [171] [18] [171]
     (by decide) (by decide) (by decide) (by decide) (by decide) (by decide) rfl⟩

end UnityCacheFS
